import Mathlib

/-!
Verification of the TODO application (Django app `todos`) against its
specification.  The data model and operations are shallowly embedded:

* `Todo` mirrors `todos/models.py` (class `Todo`): dates are day numbers
  (`Int`), timestamps are `Nat`, the primary key is a `Nat`.
* `Store` models the relational record store: the list `todos` holds the
  records in insertion order (the order in which the database assigned
  row ids), and `next_id` is the id the database will assign next.
* `TodoForm.clean` mirrors `todos/forms.py` (class `TodoForm`, a ModelForm
  over the fields title/description/due_date/is_resolved): the title is
  required with `max_length = 200`; a missing description cleans to the
  empty string, a missing due date to `none`, a missing checkbox to `false`.
* The view handlers mirror `todos/views.py`.
-/

namespace TodoApp

/-- The `Todo` model of `todos/models.py`: title (CharField, max 200),
description (TextField, blank allowed), due_date (DateField, nullable),
is_resolved (BooleanField, default false), created_at (auto_now_add),
updated_at (auto_now). -/
structure Todo where
  id : Nat
  title : String
  description : String
  due_date : Option Int
  is_resolved : Bool
  created_at : Nat
  updated_at : Nat
  deriving Repr, DecidableEq

/-- `Todo.is_overdue` from `todos/models.py`:
`if self.due_date and not self.is_resolved: return self.due_date < timezone.now().date()`
`return False`.  The current date is passed explicitly. -/
def Todo.is_overdue (t : Todo) (today : Int) : Bool :=
  match t.due_date with
  | some d => !t.is_resolved && decide (d < today)
  | none => false

/-- The record store backing the Django ORM: records in insertion order
plus the next primary key to assign. -/
structure Store where
  todos : List Todo
  next_id : Nat
  deriving Repr, DecidableEq

/-- The empty store (fresh database; Django assigns primary keys from 1). -/
def Store.empty : Store :=
  { todos := [], next_id := 1 }

/-- Raw form submission: each field of `TodoForm.Meta.fields` may be
absent from the request data. -/
structure FormData where
  title : Option String
  description : Option String
  due_date : Option Int
  is_resolved : Option Bool
  deriving Repr, DecidableEq

/-- Validation errors of `TodoForm`; both attach to the `title` field
(the only field with constraints: required, `max_length = 200`). -/
inductive FormError where
  | required
  | maxLengthExceeded
  deriving Repr, DecidableEq

/-- The cleaned data produced by a valid `TodoForm`. -/
structure CleanedData where
  title : String
  description : String
  due_date : Option Int
  is_resolved : Bool
  deriving Repr, DecidableEq

/-- `TodoForm` validation (`todos/forms.py`): the ModelForm over
`['title', 'description', 'due_date', 'is_resolved']`.  `title` is
required (absent or empty fails) and limited to 200 characters by
`models.CharField(max_length=200)`; `description` defaults to `""`,
`due_date` to unset, and the `is_resolved` checkbox to `false`. -/
def TodoForm.clean (data : FormData) : Except FormError CleanedData :=
  match data.title with
  | none => .error .required
  | some t =>
    if t.length = 0 then .error .required
    else if 200 < t.length then .error .maxLengthExceeded
    else .ok { title := t
             , description := data.description.getD ""
             , due_date := data.due_date
             , is_resolved := data.is_resolved.getD false }

/-- `get_object_or_404(Todo, pk=pk)` as a lookup: the record with the
given primary key, or `none` (the 404 case). -/
def Store.get (s : Store) (id : Nat) : Option Todo :=
  s.todos.find? (fun t => t.id == id)

/-- Modelled from the spec: Django's `Meta.ordering = ['-created_at']`
is executed by the database, whose code is not part of this repository;
the order among records with equal `created_at` is therefore modelled
from the spec's words "ties broken by insertion order", as a stable sort
of the insertion-ordered store by descending `created_at`. -/
def Store.listAll (s : Store) : List Todo :=
  s.todos.mergeSort (fun a b => decide (b.created_at ≤ a.created_at))

/-- `TodoListView.get_queryset` (`todos/views.py`): start from the
default queryset (all records in the model's default order), read
`filter` from the query string with default `'all'`, and narrow to
resolved or unresolved records; any other value leaves the queryset
untouched. -/
def TodoListView.get_queryset (s : Store) (filterParam : Option String) : List Todo :=
  let queryset := s.listAll
  let filter_type := filterParam.getD "all"
  if filter_type == "resolved" then queryset.filter (fun t => t.is_resolved)
  else if filter_type == "unresolved" then queryset.filter (fun t => !t.is_resolved)
  else queryset

/-- Outcomes of the write views: success redirects to the list view,
an invalid form is re-rendered with its errors, a missing id is a 404. -/
inductive Response where
  | redirectToList
  | formInvalid (e : FormError)
  | notFound
  deriving Repr, DecidableEq

/-- `TodoCreateView` handling a form submission: an invalid form leaves
the store untouched; a valid one inserts a record with a fresh id,
`created_at` and `updated_at` set to the current time (auto_now_add /
auto_now), and redirects to the list. -/
def TodoCreateView.post (s : Store) (data : FormData) (now : Nat) : Store × Response :=
  match TodoForm.clean data with
  | .error e => (s, .formInvalid e)
  | .ok c =>
    let todo : Todo :=
      { id := s.next_id
      , title := c.title
      , description := c.description
      , due_date := c.due_date
      , is_resolved := c.is_resolved
      , created_at := now
      , updated_at := now }
    ({ todos := s.todos ++ [todo], next_id := s.next_id + 1 }, .redirectToList)

/-- `TodoUpdateView` handling a form submission: 404 when the id does
not exist, form errors leave the store untouched, and a valid form
overwrites every form field of the record and refreshes `updated_at`
(auto_now). -/
def TodoUpdateView.post (s : Store) (id : Nat) (data : FormData) (now : Nat) :
    Store × Response :=
  match Store.get s id with
  | none => (s, .notFound)
  | some _ =>
    match TodoForm.clean data with
    | .error e => (s, .formInvalid e)
    | .ok c =>
      ({ s with todos := s.todos.map (fun t =>
            if t.id == id then
              { t with title := c.title
                     , description := c.description
                     , due_date := c.due_date
                     , is_resolved := c.is_resolved
                     , updated_at := now }
            else t) }
      , .redirectToList)

/-- `TodoDeleteView` confirming a deletion: 404 when the id does not
exist, otherwise the record is removed permanently. -/
def TodoDeleteView.post (s : Store) (id : Nat) : Store × Response :=
  match Store.get s id with
  | none => (s, .notFound)
  | some _ =>
    ({ s with todos := s.todos.filter (fun t => t.id != id) }, .redirectToList)

/-- `toggle_resolved` (`todos/views.py`): 404 when the id does not
exist, otherwise `todo.is_resolved = not todo.is_resolved; todo.save()`,
which also refreshes `updated_at` (auto_now). -/
def toggle_resolved (s : Store) (id : Nat) (now : Nat) : Store × Response :=
  match Store.get s id with
  | none => (s, .notFound)
  | some _ =>
    ({ s with todos := s.todos.map (fun t =>
          if t.id == id then
            { t with is_resolved := !t.is_resolved, updated_at := now }
          else t) }
    , .redirectToList)

/-- States reachable from the empty store by the write operations,
indexed by the wall-clock time of the latest operation; the clock never
goes backwards. -/
inductive Reachable : Nat → Store → Prop
  | init : Reachable 0 Store.empty
  | create (t now : Nat) (s : Store) (data : FormData) :
      Reachable t s → t ≤ now → Reachable now (TodoCreateView.post s data now).1
  | update (t now : Nat) (s : Store) (id : Nat) (data : FormData) :
      Reachable t s → t ≤ now → Reachable now (TodoUpdateView.post s id data now).1
  | toggle (t now : Nat) (s : Store) (id : Nat) :
      Reachable t s → t ≤ now → Reachable now (toggle_resolved s id now).1
  | delete (t : Nat) (s : Store) (id : Nat) :
      Reachable t s → Reachable t (TodoDeleteView.post s id).1

/-! ### Helper lemmas -/

/-- The listing is a permutation of the stored records. -/
theorem listAll_perm (s : Store) : s.listAll.Perm s.todos :=
  List.mergeSort_perm s.todos _

/-- The descending-`created_at` comparison is transitive. -/
theorem created_le_trans (a b c : Todo)
    (hab : decide (b.created_at ≤ a.created_at) = true)
    (hbc : decide (c.created_at ≤ b.created_at) = true) :
    decide (c.created_at ≤ a.created_at) = true := by
  simp only [decide_eq_true_eq] at *
  omega

/-- The descending-`created_at` comparison is total. -/
theorem created_le_total (a b : Todo) :
    (decide (b.created_at ≤ a.created_at) || decide (a.created_at ≤ b.created_at)) = true := by
  simp only [Bool.or_eq_true, decide_eq_true_eq]
  omega

/-- Mapping an id-preserving change over the records commutes with the
primary-key lookup. -/
theorem find_map_ite (f : Todo → Todo) (hf : ∀ t, (f t).id = t.id)
    (l : List Todo) (id : Nat) :
    (l.map (fun t => if t.id == id then f t else t)).find? (fun t => t.id == id)
      = (l.find? (fun t => t.id == id)).map f := by
  induction l with
  | nil => rfl
  | cons a l ih =>
    by_cases h : a.id = id
    · have hb : (a.id == id) = true := by simpa using h
      have hfb : ((f a).id == id) = true := by simp [hf, h]
      simp only [List.map_cons, hb, if_true, List.find?_cons, hfb]
      rfl
    · have hb : (a.id == id) = false := by simpa using h
      simp only [List.map_cons, hb, if_false, Bool.false_eq_true, List.find?_cons, ih]

/-! ### Claims -/

/-- Claim C1: for every `Todo` record and every current date,
`is_overdue` is true if and only if `due_date` is set, `is_resolved` is
false, and `due_date` is strictly before the current date; in every
other case it is false.  It is a derived attribute computed from the
record's fields and the current date (`Todo` stores no such field). -/
theorem is_overdue_spec (t : Todo) (today : Int) :
    t.is_overdue today = true ↔
      ∃ d, t.due_date = some d ∧ t.is_resolved = false ∧ d < today := by
  cases h : t.due_date with
  | none => simp [Todo.is_overdue, h]
  | some d => simp [Todo.is_overdue, h, and_assoc]

/-- Claim C2: `list(resolved)` returns exactly the resolved records,
`list(unresolved)` exactly the unresolved ones, `list(all)` every
record; a missing filter defaults to `all`, and any unknown filter value
behaves identically to `all` (no error). -/
theorem get_queryset_spec (s : Store) :
    (TodoListView.get_queryset s (some "resolved")).Perm
        (s.todos.filter (fun t => t.is_resolved)) ∧
    (TodoListView.get_queryset s (some "unresolved")).Perm
        (s.todos.filter (fun t => !t.is_resolved)) ∧
    (TodoListView.get_queryset s (some "all")).Perm s.todos ∧
    TodoListView.get_queryset s none = s.listAll ∧
    ∀ f : String, f ≠ "resolved" → f ≠ "unresolved" →
      TodoListView.get_queryset s (some f) = TodoListView.get_queryset s none := by
  refine ⟨?_, ?_, ?_, ?_, ?_⟩
  · simpa [TodoListView.get_queryset] using (listAll_perm s).filter _
  · simpa [TodoListView.get_queryset] using (listAll_perm s).filter _
  · simpa [TodoListView.get_queryset] using listAll_perm s
  · simp [TodoListView.get_queryset]
  · intro f h1 h2
    simp [TodoListView.get_queryset, h1, h2]

/-- Claim C2 witness: the unknown filter value `"done"` is treated like
`all`. -/
theorem get_queryset_spec_witness :
    TodoListView.get_queryset Store.empty (some "done")
      = TodoListView.get_queryset Store.empty none :=
  (get_queryset_spec Store.empty).2.2.2.2 "done" (by decide) (by decide)

/-- Claim C3: the listing is a permutation of the stored records,
ordered descending by `created_at` (newest first), and any two records
with equal `created_at` keep their insertion order. -/
theorem listAll_ordering (s : Store) :
    s.listAll.Perm s.todos ∧
    s.listAll.Pairwise (fun a b => b.created_at ≤ a.created_at) ∧
    (∀ fp, (TodoListView.get_queryset s fp).Pairwise
        (fun a b => b.created_at ≤ a.created_at)) ∧
    ∀ a b : Todo, a.created_at = b.created_at →
      [a, b].Sublist s.todos → [a, b].Sublist s.listAll := by
  have hsorted : s.listAll.Pairwise (fun a b => b.created_at ≤ a.created_at) := by
    have h := List.sorted_mergeSort created_le_trans created_le_total s.todos
    exact h.imp (fun hab => by simpa using hab)
  refine ⟨listAll_perm s, hsorted, ?_, ?_⟩
  · intro fp
    unfold TodoListView.get_queryset
    dsimp only
    split
    · exact List.Pairwise.sublist (List.filter_sublist _) hsorted
    · split
      · exact List.Pairwise.sublist (List.filter_sublist _) hsorted
      · exact hsorted
  · intro a b hab hsub
    exact List.pair_sublist_mergeSort created_le_trans created_le_total
      (by simp [hab]) hsub

/-- Claim C3 witness: on a concrete store with two equal-`created_at`
records and one newer record, the tie keeps insertion order. -/
theorem listAll_ordering_witness :
    let t1 : Todo := { id := 1, title := "a", description := "", due_date := none
                     , is_resolved := false, created_at := 5, updated_at := 5 }
    let t2 : Todo := { id := 2, title := "b", description := "", due_date := none
                     , is_resolved := false, created_at := 5, updated_at := 5 }
    let s : Store := { todos := [t1, t2], next_id := 3 }
    [t1, t2].Sublist s.listAll :=
  (listAll_ordering _).2.2.2 _ _ rfl (by decide)

/-- Claim C1 witness: a concrete unresolved record with `due_date` two
days before the current date is overdue. -/
theorem is_overdue_spec_witness :
    ({ id := 1, title := "Buy milk", description := "", due_date := some 3
     , is_resolved := false, created_at := 0, updated_at := 0 } : Todo).is_overdue 5
      = true :=
  (is_overdue_spec _ 5).mpr ⟨3, rfl, rfl, by decide⟩

/-- A form submission whose title is absent, empty, or over 200
characters (the cases `TodoForm` rejects). -/
def TitleInvalid (data : FormData) : Prop :=
  data.title = none ∨
    ∃ str, data.title = some str ∧ (str.length = 0 ∨ 200 < str.length)

/-- An invalid title makes `TodoForm.clean` fail. -/
theorem clean_error_of_invalid (data : FormData) (h : TitleInvalid data) :
    ∃ e, TodoForm.clean data = .error e := by
  rcases h with h | ⟨str, hstr, h⟩
  · exact ⟨.required, by simp [TodoForm.clean, h]⟩
  · rcases h with h | h
    · exact ⟨.required, by simp [TodoForm.clean, hstr, h]⟩
    · refine ⟨.maxLengthExceeded, ?_⟩
      have h0 : ¬str.length = 0 := by omega
      simp [TodoForm.clean, hstr, h0, h]

/-- A title of length 1 to 200 makes `TodoForm.clean` succeed. -/
theorem clean_ok_of_valid (data : FormData) (str : String)
    (hstr : data.title = some str) (h1 : 1 ≤ str.length) (h2 : str.length ≤ 200) :
    TodoForm.clean data
      = .ok { title := str
            , description := data.description.getD ""
            , due_date := data.due_date
            , is_resolved := data.is_resolved.getD false } := by
  have h0 : ¬str.length = 0 := by omega
  have h3 : ¬200 < str.length := by omega
  simp [TodoForm.clean, hstr, h0, h3]

/-- Claim C4: a create or update submission whose title is absent,
empty, or longer than 200 characters fails validation with a title-field
error (`FormError` values attach to the title field) and leaves the
store completely unchanged; a create with a title of length 1 to 200
succeeds and appends exactly one new record. -/
theorem create_update_validation (s : Store) (data : FormData) (id now : Nat) :
    (TitleInvalid data →
      (∃ e, TodoCreateView.post s data now = (s, .formInvalid e)) ∧
      (TodoUpdateView.post s id data now).1 = s ∧
      (∀ t, Store.get s id = some t →
        ∃ e, TodoUpdateView.post s id data now = (s, .formInvalid e))) ∧
    (∀ str, data.title = some str → 1 ≤ str.length → str.length ≤ 200 →
      ∃ todo, TodoCreateView.post s data now
          = ({ todos := s.todos ++ [todo], next_id := s.next_id + 1 }, .redirectToList)
        ∧ todo.title = str ∧ todo.id = s.next_id
        ∧ todo.created_at = now ∧ todo.updated_at = now) := by
  constructor
  · intro h
    obtain ⟨e, he⟩ := clean_error_of_invalid data h
    refine ⟨⟨e, by simp [TodoCreateView.post, he]⟩, ?_, ?_⟩
    · unfold TodoUpdateView.post
      cases hg : Store.get s id with
      | none => rfl
      | some t => simp [he]
    · intro t ht
      exact ⟨e, by simp [TodoUpdateView.post, ht, he]⟩
  · intro str hstr h1 h2
    refine ⟨{ id := s.next_id, title := str
            , description := data.description.getD ""
            , due_date := data.due_date
            , is_resolved := data.is_resolved.getD false
            , created_at := now, updated_at := now }, ?_, rfl, rfl, rfl, rfl⟩
    simp [TodoCreateView.post, clean_ok_of_valid data str hstr h1 h2]

/-- Claim C4 witness: a titleless submission is rejected and the empty
store is unchanged; the title "Buy milk" creates a record. -/
theorem create_update_validation_witness :
    ((∃ e, TodoCreateView.post Store.empty
        { title := none, description := none, due_date := none, is_resolved := none } 7
        = (Store.empty, .formInvalid e)) ∧
      (TodoUpdateView.post Store.empty 1
        { title := none, description := none, due_date := none, is_resolved := none } 7).1
        = Store.empty) ∧
    ∃ todo, TodoCreateView.post Store.empty
        { title := some "Buy milk", description := none, due_date := none
        , is_resolved := none } 7
        = ({ todos := Store.empty.todos ++ [todo]
           , next_id := Store.empty.next_id + 1 }, .redirectToList)
      ∧ todo.title = "Buy milk" ∧ todo.id = Store.empty.next_id
      ∧ todo.created_at = 7 ∧ todo.updated_at = 7 :=
  ⟨⟨((create_update_validation Store.empty _ 1 7).1 (Or.inl rfl)).1,
    ((create_update_validation Store.empty _ 1 7).1 (Or.inl rfl)).2.1⟩,
   (create_update_validation Store.empty _ 1 7).2 "Buy milk" rfl (by decide) (by decide)⟩

/-- A toggle rewrites exactly the looked-up record in the lookup. -/
theorem get_toggle (s : Store) (id now : Nat) :
    Store.get (toggle_resolved s id now).1 id
      = (Store.get s id).map
          (fun t => { t with is_resolved := !t.is_resolved, updated_at := now }) := by
  cases h : Store.get s id with
  | none => simp [toggle_resolved, h]
  | some t =>
    have key := find_map_ite
      (fun u => { u with is_resolved := !u.is_resolved, updated_at := now })
      (fun u => rfl) s.todos id
    unfold toggle_resolved
    rw [h]
    dsimp only
    unfold Store.get
    dsimp only
    rw [key, show s.todos.find? (fun u => u.id == id) = some t from h]

/-- Claim C5: toggling an existing record twice returns `is_resolved` to
its original value, and each application sets `updated_at` to its own
time. -/
theorem toggle_self_inverse (s : Store) (id : Nat) (t : Todo) (n1 n2 : Nat)
    (h : Store.get s id = some t) :
    ∃ t1 t2,
      Store.get (toggle_resolved s id n1).1 id = some t1 ∧
      Store.get (toggle_resolved (toggle_resolved s id n1).1 id n2).1 id = some t2 ∧
      t1.is_resolved = !t.is_resolved ∧ t1.updated_at = n1 ∧
      t2.is_resolved = t.is_resolved ∧ t2.updated_at = n2 := by
  have h1 : Store.get (toggle_resolved s id n1).1 id
      = some { t with is_resolved := !t.is_resolved, updated_at := n1 } := by
    rw [get_toggle, h]
    rfl
  have h2 : Store.get (toggle_resolved (toggle_resolved s id n1).1 id n2).1 id
      = some { t with is_resolved := !(!t.is_resolved), updated_at := n2 } := by
    rw [get_toggle, h1]
    rfl
  exact ⟨_, _, h1, h2, rfl, rfl, by simp, rfl⟩

/-- Claim C5 witness: toggling a concrete unresolved record at times 3
and 5 flips it to resolved and back, stamping `updated_at` each time. -/
theorem toggle_self_inverse_witness :
    let t0 : Todo := { id := 1, title := "a", description := "", due_date := none
                     , is_resolved := false, created_at := 0, updated_at := 0 }
    let s : Store := { todos := [t0], next_id := 2 }
    ∃ t1 t2,
      Store.get (toggle_resolved s 1 3).1 1 = some t1 ∧
      Store.get (toggle_resolved (toggle_resolved s 1 3).1 1 5).1 1 = some t2 ∧
      t1.is_resolved = !t0.is_resolved ∧ t1.updated_at = 3 ∧
      t2.is_resolved = t0.is_resolved ∧ t2.updated_at = 5 :=
  toggle_self_inverse _ 1 _ 3 5 rfl

/-- Claim C6: a successful delete removes the record permanently: a
subsequent lookup of the same id is not-found, and no record with that
id remains in the store (no tombstone). -/
theorem delete_then_get (s : Store) (id : Nat) (s2 : Store)
    (h : TodoDeleteView.post s id = (s2, Response.redirectToList)) :
    Store.get s2 id = none ∧ ∀ t ∈ s2.todos, t.id ≠ id := by
  unfold TodoDeleteView.post at h
  cases hg : Store.get s id with
  | none =>
    rw [hg] at h
    exact absurd (congrArg Prod.snd h) (by simp)
  | some t =>
    rw [hg] at h
    dsimp only at h
    have hs2 : s2 = { s with todos := s.todos.filter (fun t => t.id != id) } :=
      (congrArg Prod.fst h).symm
    subst hs2
    constructor
    · refine List.find?_eq_none.mpr ?_
      intro x hx
      have := (List.mem_filter.mp hx).2
      simpa using this
    · intro x hx
      have := (List.mem_filter.mp hx).2
      simpa using this

/-- Claim C6 witness: deleting the only record of a concrete store makes
its id unfindable. -/
theorem delete_then_get_witness :
    Store.get { todos := [], next_id := 2 } 1 = none ∧
      ∀ t ∈ ({ todos := [], next_id := 2 } : Store).todos, t.id ≠ 1 :=
  delete_then_get
    { todos := [{ id := 1, title := "a", description := "", due_date := none
                , is_resolved := false, created_at := 0, updated_at := 0 }]
    , next_id := 2 } 1 _ rfl

/-- Claim C7: on an id that is not in the store, update, delete, and
toggle each answer not-found and leave the store exactly as it was (the
lookup itself is the not-found `get`). -/
theorem not_found_no_mutation (s : Store) (id : Nat) (data : FormData) (now : Nat)
    (h : Store.get s id = none) :
    TodoUpdateView.post s id data now = (s, .notFound) ∧
    TodoDeleteView.post s id = (s, .notFound) ∧
    toggle_resolved s id now = (s, .notFound) := by
  unfold TodoUpdateView.post TodoDeleteView.post toggle_resolved
  rw [h]
  exact ⟨rfl, rfl, rfl⟩

/-- Claim C7 witness: id 1 is absent from the empty store, and all three
operations return it unchanged with not-found. -/
theorem not_found_no_mutation_witness :
    TodoUpdateView.post Store.empty 1
        { title := some "a", description := none, due_date := none
        , is_resolved := none } 4
      = (Store.empty, .notFound) ∧
    TodoDeleteView.post Store.empty 1 = (Store.empty, .notFound) ∧
    toggle_resolved Store.empty 1 4 = (Store.empty, .notFound) :=
  not_found_no_mutation Store.empty 1 _ 4 rfl

/-- Claim C9: toggling changes nothing but the `is_resolved` and
`updated_at` fields of the record with the toggled id: the count of
records and the next id are unchanged, every record keeps its id, title,
description, due date and creation time, every record whose id differs
is untouched, and the record with the toggled id gets its flag flipped
and its `updated_at` set to the toggle time. -/
theorem toggle_frame (s : Store) (id now : Nat) :
    (toggle_resolved s id now).1.next_id = s.next_id ∧
    List.Forall₂ (fun t u =>
        u.id = t.id ∧ u.title = t.title ∧ u.description = t.description ∧
        u.due_date = t.due_date ∧ u.created_at = t.created_at ∧
        (t.id ≠ id → u = t) ∧
        (t.id = id → u.is_resolved = (!t.is_resolved) ∧ u.updated_at = now))
      s.todos (toggle_resolved s id now).1.todos := by
  cases h : Store.get s id with
  | none =>
    have habs : ∀ x ∈ s.todos, x.id ≠ id := by
      intro x hx
      have := List.find?_eq_none.mp h x hx
      simpa using this
    refine ⟨by simp [toggle_resolved, h], ?_⟩
    have : (toggle_resolved s id now).1 = s := by simp [toggle_resolved, h]
    rw [this]
    refine List.forall₂_same.mpr ?_
    intro x hx
    exact ⟨rfl, rfl, rfl, rfl, rfl, fun _ => rfl, fun hid => absurd hid (habs x hx)⟩
  | some t =>
    refine ⟨by simp [toggle_resolved, h], ?_⟩
    have hres : (toggle_resolved s id now).1.todos
        = s.todos.map (fun u =>
            if u.id == id then { u with is_resolved := !u.is_resolved, updated_at := now }
            else u) := by
      simp [toggle_resolved, h]
    rw [hres, List.forall₂_map_right_iff]
    refine List.forall₂_same.mpr ?_
    intro x hx
    by_cases hid : x.id = id
    · have hb : (x.id == id) = true := by simpa using hid
      refine ⟨?_, ?_, ?_, ?_, ?_, ?_, ?_⟩ <;> simp [hb, hid]
    · have hb : (x.id == id) = false := by simpa using hid
      refine ⟨?_, ?_, ?_, ?_, ?_, ?_, ?_⟩ <;> simp [hb, hid]

/-- A successful update rewrites exactly the looked-up record in the
lookup. -/
theorem get_update (s : Store) (id now : Nat) (data : FormData) (c : CleanedData)
    (hc : TodoForm.clean data = .ok c) (t : Todo) (h : Store.get s id = some t) :
    Store.get (TodoUpdateView.post s id data now).1 id
      = some { t with title := c.title, description := c.description
                    , due_date := c.due_date, is_resolved := c.is_resolved
                    , updated_at := now } := by
  have key := find_map_ite
    (fun u => { u with title := c.title, description := c.description
                     , due_date := c.due_date, is_resolved := c.is_resolved
                     , updated_at := now })
    (fun u => rfl) s.todos id
  unfold TodoUpdateView.post
  rw [h, hc]
  dsimp only
  unfold Store.get
  dsimp only
  rw [key, show s.todos.find? (fun u => u.id == id) = some t from h]
  rfl

/-- Claim C10: a successful update overwrites all four form fields with
the cleaned submission — in particular an omitted `due_date` resets the
stored value to unset, an omitted `is_resolved` resets it to false, and
an omitted description resets it to empty — while keeping `created_at`
and stamping `updated_at`. -/
theorem update_overwrites_all_fields (s : Store) (id : Nat) (data : FormData)
    (now : Nat) (t : Todo) (h : Store.get s id = some t)
    (c : CleanedData) (hc : TodoForm.clean data = .ok c) :
    c.due_date = data.due_date ∧
    c.is_resolved = data.is_resolved.getD false ∧
    c.description = data.description.getD "" ∧
    ∃ u, Store.get (TodoUpdateView.post s id data now).1 id = some u ∧
      u.title = c.title ∧ u.description = c.description ∧
      u.due_date = c.due_date ∧ u.is_resolved = c.is_resolved ∧
      u.created_at = t.created_at ∧ u.updated_at = now := by
  have hfields : c.due_date = data.due_date ∧
      c.is_resolved = data.is_resolved.getD false ∧
      c.description = data.description.getD "" := by
    unfold TodoForm.clean at hc
    cases hstr : data.title with
    | none => rw [hstr] at hc; cases hc
    | some str =>
      rw [hstr] at hc
      by_cases h0 : str.length = 0
      · simp [h0] at hc
      · by_cases h200 : 200 < str.length
        · simp [h0, h200] at hc
        · simp only [h0, h200, if_neg, if_false, ite_false] at hc
          simp at hc
          obtain ⟨-, rfl⟩ := hc
          exact ⟨rfl, rfl, rfl⟩
  refine ⟨hfields.1, hfields.2.1, hfields.2.2, _, get_update s id now data c hc t h,
    rfl, rfl, rfl, rfl, rfl, rfl⟩

/-- Claim C10 witness: updating a record that has a due date and is
resolved with a submission carrying only a title clears the due date,
the flag, and the description. -/
theorem update_overwrites_all_fields_witness :
    let t0 : Todo := { id := 1, title := "old", description := "d", due_date := some 9
                     , is_resolved := true, created_at := 2, updated_at := 2 }
    let s : Store := { todos := [t0], next_id := 2 }
    let data : FormData := { title := some "new", description := none
                           , due_date := none, is_resolved := none }
    let c : CleanedData := { title := "new", description := "", due_date := none
                           , is_resolved := false }
    c.due_date = data.due_date ∧
    c.is_resolved = data.is_resolved.getD false ∧
    c.description = data.description.getD "" ∧
    ∃ u, Store.get (TodoUpdateView.post s 1 data 7).1 1 = some u ∧
      u.title = c.title ∧ u.description = c.description ∧
      u.due_date = c.due_date ∧ u.is_resolved = c.is_resolved ∧
      u.created_at = t0.created_at ∧ u.updated_at = 7 :=
  update_overwrites_all_fields
    { todos := [{ id := 1, title := "old", description := "d", due_date := some 9
                , is_resolved := true, created_at := 2, updated_at := 2 }]
    , next_id := 2 } 1
    { title := some "new", description := none, due_date := none, is_resolved := none } 7
    { id := 1, title := "old", description := "d", due_date := some 9
    , is_resolved := true, created_at := 2, updated_at := 2 } rfl
    { title := "new", description := "", due_date := none, is_resolved := false } rfl

/-- In every reachable state, every record satisfies
`created_at ≤ updated_at`, and both are bounded by the clock. -/
theorem reachable_created_le_updated {t : Nat} {s : Store} (h : Reachable t s) :
    ∀ todo ∈ s.todos, todo.created_at ≤ todo.updated_at ∧ todo.updated_at ≤ t := by
  induction h with
  | init =>
    intro todo htodo
    simp [Store.empty] at htodo
  | create tp now s data hr hle ih =>
    intro todo htodo
    unfold TodoCreateView.post at htodo
    cases hc : TodoForm.clean data with
    | error e =>
      rw [hc] at htodo
      obtain ⟨h1, h2⟩ := ih todo htodo
      exact ⟨h1, le_trans h2 hle⟩
    | ok c =>
      rw [hc] at htodo
      dsimp only at htodo
      rcases List.mem_append.mp htodo with hmem | hmem
      · obtain ⟨h1, h2⟩ := ih todo hmem
        exact ⟨h1, le_trans h2 hle⟩
      · have heq := List.mem_singleton.mp hmem
        subst heq
        exact ⟨Nat.le_refl now, Nat.le_refl now⟩
  | update tp now s id data hr hle ih =>
    intro todo htodo
    unfold TodoUpdateView.post at htodo
    cases hg : Store.get s id with
    | none =>
      rw [hg] at htodo
      obtain ⟨h1, h2⟩ := ih todo htodo
      exact ⟨h1, le_trans h2 hle⟩
    | some t0 =>
      rw [hg] at htodo
      dsimp only at htodo
      cases hc : TodoForm.clean data with
      | error e =>
        rw [hc] at htodo
        obtain ⟨h1, h2⟩ := ih todo htodo
        exact ⟨h1, le_trans h2 hle⟩
      | ok c =>
        rw [hc] at htodo
        dsimp only at htodo
        obtain ⟨x, hxmem, hx⟩ := List.mem_map.mp htodo
        obtain ⟨h1, h2⟩ := ih x hxmem
        by_cases hid : (x.id == id) = true
        · rw [if_pos hid] at hx
          subst hx
          exact ⟨le_trans h1 (le_trans h2 hle), Nat.le_refl now⟩
        · rw [if_neg hid] at hx
          subst hx
          exact ⟨h1, le_trans h2 hle⟩
  | toggle tp now s id hr hle ih =>
    intro todo htodo
    unfold toggle_resolved at htodo
    cases hg : Store.get s id with
    | none =>
      rw [hg] at htodo
      obtain ⟨h1, h2⟩ := ih todo htodo
      exact ⟨h1, le_trans h2 hle⟩
    | some t0 =>
      rw [hg] at htodo
      dsimp only at htodo
      obtain ⟨x, hxmem, hx⟩ := List.mem_map.mp htodo
      obtain ⟨h1, h2⟩ := ih x hxmem
      by_cases hid : (x.id == id) = true
      · rw [if_pos hid] at hx
        subst hx
        exact ⟨le_trans h1 (le_trans h2 hle), Nat.le_refl now⟩
      · rw [if_neg hid] at hx
        subst hx
        exact ⟨h1, le_trans h2 hle⟩
  | delete tp s id hr ih =>
    intro todo htodo
    unfold TodoDeleteView.post at htodo
    cases hg : Store.get s id with
    | none =>
      rw [hg] at htodo
      exact ih todo htodo
    | some t0 =>
      rw [hg] at htodo
      dsimp only at htodo
      exact ih todo (List.mem_filter.mp htodo).1

/-- An unchanged record list satisfies the created-at/updated-at frame
relation trivially. -/
theorem forall₂_refl_frame (l : List Todo) (now : Nat) :
    List.Forall₂
      (fun x u => u.created_at = x.created_at ∧ (u ≠ x → u.updated_at = now)) l l :=
  List.forall₂_same.mpr fun _ _ => ⟨rfl, fun hne => absurd rfl hne⟩

/-- Claim C8: in every state reachable by create, update, toggle and
delete, every record has `created_at ≤ updated_at`; creation stamps both
with the creation time; update and toggle never change `created_at`,
and any record they change gets `updated_at` set to the operation
time. -/
theorem timestamps_invariant :
    (∀ t s, Reachable t s → ∀ todo ∈ s.todos, todo.created_at ≤ todo.updated_at) ∧
    (∀ s data now todo s2,
      TodoCreateView.post s data now = (s2, .redirectToList) →
      todo ∈ s2.todos → todo ∉ s.todos →
      todo.created_at = now ∧ todo.updated_at = now) ∧
    (∀ s id data now, List.Forall₂
        (fun x u => u.created_at = x.created_at ∧ (u ≠ x → u.updated_at = now))
        s.todos (TodoUpdateView.post s id data now).1.todos) ∧
    (∀ s id now, List.Forall₂
        (fun x u => u.created_at = x.created_at ∧ (u ≠ x → u.updated_at = now))
        s.todos (toggle_resolved s id now).1.todos) := by
  refine ⟨?_, ?_, ?_, ?_⟩
  · intro t s hr todo htodo
    exact (reachable_created_le_updated hr todo htodo).1
  · intro s data now todo s2 hpost hmem hnotmem
    unfold TodoCreateView.post at hpost
    cases hc : TodoForm.clean data with
    | error e =>
      rw [hc] at hpost
      exact absurd (congrArg Prod.snd hpost) (by simp)
    | ok c =>
      rw [hc] at hpost
      dsimp only at hpost
      have hs2 := congrArg Prod.fst hpost
      dsimp only at hs2
      subst hs2
      dsimp only at hmem
      rcases List.mem_append.mp hmem with hmem2 | hmem2
      · exact absurd hmem2 hnotmem
      · have heq := List.mem_singleton.mp hmem2
        subst heq
        exact ⟨rfl, rfl⟩
  · intro s id data now
    cases hg : Store.get s id with
    | none =>
      have hsame : (TodoUpdateView.post s id data now).1 = s := by
        simp [TodoUpdateView.post, hg]
      rw [hsame]
      exact forall₂_refl_frame s.todos now
    | some t0 =>
      cases hc : TodoForm.clean data with
      | error e =>
        have hsame : (TodoUpdateView.post s id data now).1 = s := by
          simp [TodoUpdateView.post, hg, hc]
        rw [hsame]
        exact forall₂_refl_frame s.todos now
      | ok c =>
        have hres : (TodoUpdateView.post s id data now).1.todos
            = s.todos.map (fun u =>
                if u.id == id then
                  { u with title := c.title, description := c.description
                         , due_date := c.due_date, is_resolved := c.is_resolved
                         , updated_at := now }
                else u) := by
          simp [TodoUpdateView.post, hg, hc]
        rw [hres, List.forall₂_map_right_iff]
        refine List.forall₂_same.mpr fun x _ => ?_
        by_cases hid : (x.id == id) = true
        · rw [if_pos hid]
          exact ⟨rfl, fun _ => rfl⟩
        · rw [if_neg hid]
          exact ⟨rfl, fun hne => absurd rfl hne⟩
  · intro s id now
    cases hg : Store.get s id with
    | none =>
      have hsame : (toggle_resolved s id now).1 = s := by
        simp [toggle_resolved, hg]
      rw [hsame]
      exact forall₂_refl_frame s.todos now
    | some t0 =>
      have hres : (toggle_resolved s id now).1.todos
          = s.todos.map (fun u =>
              if u.id == id then
                { u with is_resolved := !u.is_resolved, updated_at := now }
              else u) := by
        simp [toggle_resolved, hg]
      rw [hres, List.forall₂_map_right_iff]
      refine List.forall₂_same.mpr fun x _ => ?_
      by_cases hid : (x.id == id) = true
      · rw [if_pos hid]
        exact ⟨rfl, fun _ => rfl⟩
      · rw [if_neg hid]
        exact ⟨rfl, fun hne => absurd rfl hne⟩

/-- Claim C8 witness: the record created in the empty store at time 4
satisfies `created_at ≤ updated_at` in the reachable state produced. -/
theorem timestamps_invariant_witness :
    ({ id := 1, title := "a", description := "", due_date := none, is_resolved := false
     , created_at := 4, updated_at := 4 } : Todo).created_at
      ≤ ({ id := 1, title := "a", description := "", due_date := none
         , is_resolved := false, created_at := 4, updated_at := 4 } : Todo).updated_at :=
  timestamps_invariant.1 4 _
    (Reachable.create 0 4 Store.empty
      { title := some "a", description := none, due_date := none, is_resolved := none }
      Reachable.init (Nat.zero_le 4)) _ (by decide)

end TodoApp
